import Mathlib

/-!
# Verification of `real_hardware_demo.py`

A shallow embedding of the ChipWhisperer demo script in Lean 4.

The script is a linear orchestration around external libraries:
- the hardware SDK (scope/target handles, arm/capture/read, serial I/O)
  is modelled by environment records (`CommEnv`, `Env`) supplying the
  outcome of each external call: a fallible call is an `Except`/`Option`
  value, an exception raised by the library is the `error`/`none` case;
- `numpy` reductions (`np.mean`, `np.var`, `np.std`, `np.min`, `np.max`,
  `np.corrcoef`) are embedded over `List ℚ` (exact arithmetic in place of
  IEEE floats), with `np.std` and the correlation coefficient valued in
  `ℝ` because of the square root. A floating-point NaN result (as arises
  from `np.corrcoef` on a zero-variance input, and then propagates through
  `np.mean`) is modelled as `Option.none`;
- `matplotlib` calls are pure I/O and are modelled only through the
  boolean result of `generate_plot`.

Python sample arrays are `List ℚ`; the trace set `self.traces` is a
`List (List ℚ)`. `np.array(self.traces)` requires a rectangular input, and
per the spec the trace length is fixed by the device configuration, so
per-column reductions read column `i` of each trace with `List.getD · i 0`.
-/

namespace RealHardwareDemo

/-! ## numpy reductions over `List ℚ` -/

namespace np

/-- `np.mean` of a 1-d array.  (On an empty array numpy yields NaN; the
script only applies it to nonempty data, and `0/0 = 0` here.) -/
def mean (l : List ℚ) : ℚ := l.sum / l.length

/-- `np.var` of a 1-d array: population variance, the mean of the squared
deviations from the mean (numpy default `ddof = 0`). -/
def var (l : List ℚ) : ℚ := mean (l.map (fun x => (x - mean l) ^ 2))

/-- `np.std` of a 1-d array: square root of the population variance. -/
noncomputable def std (l : List ℚ) : ℝ := Real.sqrt (var l)

/-- `np.max` of a 1-d array (numpy raises on an empty array; the script
only applies it to nonempty data). -/
def maxQ (l : List ℚ) : ℚ := l.max?.getD 0

/-- `np.min` of a 1-d array (numpy raises on an empty array; the script
only applies it to nonempty data). -/
def minQ (l : List ℚ) : ℚ := l.min?.getD 0

/-- Population covariance of two equal-length 1-d arrays, as used by
`np.corrcoef`. -/
def cov (x y : List ℚ) : ℚ :=
  mean (List.zipWith (fun a b => (a - mean x) * (b - mean y)) x y)

/-- `np.corrcoef(x, y)[0, 1]`: the Pearson correlation coefficient.  When
either input has zero variance the denominator is zero and numpy produces
NaN (with a runtime warning, not an exception); that is the `none` case. -/
noncomputable def corrcoef (x y : List ℚ) : Option ℝ :=
  if var x = 0 ∨ var y = 0 then none
  else some ((cov x y : ℝ) / (Real.sqrt (var x) * Real.sqrt (var y)))

end np

/-! ## Data model: the demo object -/

/-- The mutable state of the `RealChipWhispererDemo` Python object.
`scope`/`target` record whether the corresponding handle has been set
(non-`None` in Python). -/
structure RealChipWhispererDemo where
  scope : Bool
  target : Bool
  connected : Bool
  traces : List (List ℚ)

/-- `RealChipWhispererDemo.__init__`: all handles unset, no traces. -/
def initDemo : RealChipWhispererDemo :=
  { scope := false, target := false, connected := false, traces := [] }

/-! ## Trace capture -/

/-- `capture_real_trace(input_data)`: arm, write, capture, read back the
waveform.  The whole body is wrapped in `try/except` returning `None` on
any failure, so the device model `dev` directly supplies
`Option (List ℚ)`: the captured waveform, or `none` when any of the
hardware calls raised. -/
def capture_real_trace (dev : List ℕ → Option (List ℚ))
    (input_data : List ℕ) : Option (List ℚ) :=
  dev input_data

/-- The input payload used at iteration `i` of `capture_multiple_traces`:
`input_data = [i % 256] * 16`. -/
def inputData (i : ℕ) : List ℕ := List.replicate 16 (i % 256)

/-- The capture loop of `capture_multiple_traces`: for each remaining
iteration index, attempt a capture and append the trace to the
accumulator when it is not `None`. -/
def captureLoop (dev : List ℕ → Option (List ℚ)) :
    List ℕ → List (List ℚ) → List (List ℚ)
  | [], acc => acc
  | i :: is, acc =>
    match capture_real_trace dev (inputData i) with
    | some t => captureLoop dev is (acc ++ [t])
    | none => captureLoop dev is acc

/-- The contents of `self.traces` after `capture_multiple_traces(n)`:
the loop starts from `self.traces = []`. -/
def captureSet (dev : List ℕ → Option (List ℚ)) (n : ℕ) : List (List ℚ) :=
  captureLoop dev (List.range n) []

/-- `capture_multiple_traces(num_traces)`: resets `self.traces` to `[]`,
runs the capture loop over iteration indices `0, …, num_traces - 1`, and
returns `len(self.traces) > 0`. -/
def capture_multiple_traces (dev : List ℕ → Option (List ℚ)) (num_traces : ℕ)
    (d : RealChipWhispererDemo) : RealChipWhispererDemo × Bool :=
  ({ d with traces := captureSet dev num_traces },
   decide (0 < (captureSet dev num_traces).length))

/-- The list of capture attempt results of `capture_multiple_traces(n)`,
in iteration order: the `i`-th attempt calls the device on the payload
`[i % 256] * 16`. -/
def captureAttempts (dev : List ℕ → Option (List ℚ)) (n : ℕ) :
    List (Option (List ℚ)) :=
  (List.range n).map (fun i => capture_real_trace dev (inputData i))

/-! ## Analysis -/

/-- Column `i` of `np.array(self.traces)` (rectangular by the fixed trace
length; out-of-range reads default to `0` and never occur on rectangular
data). -/
def column (ts : List (List ℚ)) (i : ℕ) : List ℚ :=
  ts.map (fun t => t.getD i 0)

/-- The common trace length: `len(mean_trace)`, i.e. the number of columns
of `np.array(self.traces)`. -/
def traceLen (ts : List (List ℚ)) : ℕ := (ts.headD []).length

/-- `mean_trace = np.mean(trace_array, axis=0)`. -/
def meanTrace (ts : List (List ℚ)) : List ℚ :=
  (List.range (traceLen ts)).map (fun i => np.mean (column ts i))

/-- Per-column variance `np.var(trace_array, axis=0)` at column `i`. -/
def varAt (ts : List (List ℚ)) (i : ℕ) : ℚ := np.var (column ts i)

/-- `variance = np.var(trace_array, axis=0)`. -/
def varianceList (ts : List (List ℚ)) : List ℚ :=
  (List.range (traceLen ts)).map (fun i => varAt ts i)

/-- `std_trace = np.std(trace_array, axis=0)`. -/
noncomputable def stdTrace (ts : List (List ℚ)) : List ℝ :=
  (varianceList ts).map (fun v : ℚ => Real.sqrt (v : ℝ))

/-- `mean_variance = np.mean(variance)`. -/
def meanVariance (ts : List (List ℚ)) : ℚ := np.mean (varianceList ts)

/-- `interesting_points = np.where(variance > mean_variance * 1.5)[0]`:
the column indices whose variance strictly exceeds `mean_variance * 1.5`,
in increasing order. -/
def interestingIndices (ts : List (List ℚ)) : List ℕ :=
  (List.range (traceLen ts)).filter
    (fun i => decide (meanVariance ts * 1.5 < varAt ts i))

/-- The ordered pairs `(self.traces[i], self.traces[j])` with `i < j`,
exactly as enumerated by the nested correlation loops. -/
def tracePairs (ts : List (List ℚ)) : List (List ℚ × List ℚ) :=
  (List.range ts.length).flatMap (fun i =>
    ((List.range ts.length).filter (fun j => decide (i < j))).map
      (fun j => (ts.getD i [], ts.getD j [])))

/-- `avg_correlation`: for more than one trace, the `np.mean` of the list
of pairwise `np.corrcoef` values (`0` when the pair list is empty, per the
`if correlations else 0` guard); a NaN among the correlations propagates
through `np.mean`, hence `none` as soon as any pair is undefined.  For at
most one trace the `else` branch yields `0` without touching any pair. -/
noncomputable def avgCorrelation (ts : List (List ℚ)) : Option ℝ :=
  if 1 < ts.length then
    let cs := (tracePairs ts).map (fun p => np.corrcoef p.1 p.2)
    if cs.isEmpty then some 0
    else if cs.all Option.isSome then
      some ((cs.filterMap id).sum / (cs.length : ℝ))
    else none
  else some 0

/-- The analysis dictionary built by `analyze_traces`. -/
structure AnalysisResult where
  num_traces : ℕ
  trace_length : ℕ
  max_power : ℚ
  min_power : ℚ
  power_range : ℚ
  interesting_points : ℕ
  avg_correlation : Option ℝ
  mean_trace : List ℚ
  std_trace : List ℝ
  variance : List ℚ

/-- The analysis record computed on a nonempty trace set. -/
noncomputable def mkAnalysis (ts : List (List ℚ)) : AnalysisResult :=
  { num_traces := ts.length
    trace_length := (meanTrace ts).length
    max_power := np.maxQ (meanTrace ts)
    min_power := np.minQ (meanTrace ts)
    power_range := np.maxQ (meanTrace ts) - np.minQ (meanTrace ts)
    interesting_points := (interestingIndices ts).length
    avg_correlation := avgCorrelation ts
    mean_trace := meanTrace ts
    std_trace := stdTrace ts
    variance := varianceList ts }

/-- `analyze_traces()`: returns `False` (here `none`) on an empty trace
set, otherwise the analysis dictionary. -/
noncomputable def analyze_traces (ts : List (List ℚ)) : Option AnalysisResult :=
  if ts = [] then none else some (mkAnalysis ts)

/-- `generate_plot()`: returns `False` when there are no traces, otherwise
renders the figure (pure I/O, delegated to matplotlib) and returns
`True`. -/
def generate_plot (ts : List (List ℚ)) : Bool :=
  if ts = [] then false else true

/-! ## Communication probe -/

/-- Outcomes of the external serial calls made by
`test_target_communication`: whether `flush` and `simpleserial_write`
return normally, and the result of `read` (`error` when the library
raised, otherwise the response bytes). -/
structure CommEnv where
  flush_ok : Bool
  write_ok : Bool
  read_result : Except Unit (List ℕ)

/-- The externally visible serial actions of the probe, in order. -/
inductive CommAction where
  | flush : CommAction
  | write (cmd : Char) (data : List ℕ) : CommAction
  | sleep : CommAction
  | read : CommAction
deriving DecidableEq

/-- The full action sequence of a probe that reaches the read:
`flush`, then `simpleserial_write('p', bytearray([0xAA] * 16))`, then
`time.sleep(0.2)`, then `read()`. -/
def probeSeq : List CommAction :=
  [CommAction.flush, CommAction.write 'p' (List.replicate 16 170),
   CommAction.sleep, CommAction.read]

/-- `test_target_communication()`: runs the serial exchange inside
`try/except`; returns `True` exactly when every call returned normally
and the response is non-empty, `False` on an empty response or on any
exception.  Also records the serial actions attempted, in order. -/
def test_target_communication (e : CommEnv) : Bool × List CommAction :=
  if e.flush_ok = false then (false, [CommAction.flush])
  else if e.write_ok = false then
    (false, [CommAction.flush, CommAction.write 'p' (List.replicate 16 170)])
  else
    match e.read_result with
    | Except.error _ => (false, probeSeq)
    | Except.ok resp => (decide (resp ≠ []), probeSeq)

/-! ## Run sequence and teardown -/

/-- The environment of a whole run: the outcome of `connect`, the serial
outcomes of the probe, the capture device, and whether the two `dis()`
teardown calls return normally. -/
structure Env where
  connect_ok : Bool
  comm : CommEnv
  dev : List ℕ → Option (List ℚ)
  scope_dis_ok : Bool
  target_dis_ok : Bool

/-- The steps of the demo sequence, in program order. -/
inductive DemoStep where
  | connect : DemoStep
  | probe : DemoStep
  | capture : DemoStep
  | analyze : DemoStep
  | plot : DemoStep
  | disconnect : DemoStep
deriving DecidableEq

/-- The five gated steps of `run_demo`, in program order. -/
def runSeq : List DemoStep :=
  [DemoStep.connect, DemoStep.probe, DemoStep.capture,
   DemoStep.analyze, DemoStep.plot]

/-- `connect()`: on success the scope and target handles are set and
`self.connected = True`; on an exception the state is unchanged and
`False` is returned. -/
def connect (env : Env) (d : RealChipWhispererDemo) :
    RealChipWhispererDemo × Bool :=
  if env.connect_ok then
    ({ d with scope := true, target := true, connected := true }, true)
  else (d, false)

/-- `run_demo()`: the gated sequence connect → probe → capture → analyze
→ plot, each step running only if every previous step succeeded.
Returns the final object state, the overall success flag, and the list
of steps that were executed, in order. -/
noncomputable def run_demo (env : Env) (d : RealChipWhispererDemo) :
    RealChipWhispererDemo × Bool × List DemoStep :=
  match connect env d with
  | (d1, false) => (d1, false, [DemoStep.connect])
  | (d1, true) =>
    if (test_target_communication env.comm).1 = false then
      (d1, false, [DemoStep.connect, DemoStep.probe])
    else
      match capture_multiple_traces env.dev 5 d1 with
      | (d2, false) =>
        (d2, false, [DemoStep.connect, DemoStep.probe, DemoStep.capture])
      | (d2, true) =>
        match analyze_traces d2.traces with
        | none =>
          (d2, false,
           [DemoStep.connect, DemoStep.probe, DemoStep.capture,
            DemoStep.analyze])
        | some _ =>
          if generate_plot d2.traces = false then
            (d2, false, runSeq)
          else (d2, true, runSeq)

/-- The underlying teardown calls of `disconnect()`: `scope.dis()` then
`target.dis()`, each attempted only when the handle is set; `error` when
one of them raises. -/
def disconnectRaw (env : Env) (d : RealChipWhispererDemo) :
    Except Unit Unit :=
  if d.scope && !env.scope_dis_ok then Except.error ()
  else if d.target && !env.target_dis_ok then Except.error ()
  else Except.ok ()

/-- `disconnect()`: the teardown wrapped in `try/except`, so any error is
swallowed (and logged) rather than propagated. -/
def disconnect (env : Env) (d : RealChipWhispererDemo) : Except Unit Unit :=
  match disconnectRaw env d with
  | Except.ok _ => Except.ok ()
  | Except.error _ => Except.ok ()

/-- `main()`: builds a fresh demo object, runs `run_demo` inside
`try/finally`, and the `finally` block invokes `disconnect` exactly once.
The value is the list of executed steps including the teardown. -/
noncomputable def main (env : Env) : List DemoStep :=
  (run_demo env initDemo).2.2 ++ [DemoStep.disconnect]

/-- Success of the `j`-th step of `runSeq` (0-indexed), as determined by
the environment: the outcome each step would report when reached. -/
noncomputable def stepOk (env : Env) : ℕ → Bool
  | 0 => env.connect_ok
  | 1 => (test_target_communication env.comm).1
  | 2 => decide (0 < (captureSet env.dev 5).length)
  | 3 => (analyze_traces (captureSet env.dev 5)).isSome
  | 4 => generate_plot (captureSet env.dev 5)
  | _ => true

/-- The number of `runSeq` steps that execute: every step up to and
including the first failing one. -/
noncomputable def execCount (env : Env) : ℕ :=
  if stepOk env 0 = false then 1
  else if stepOk env 1 = false then 2
  else if stepOk env 2 = false then 3
  else if stepOk env 3 = false then 4
  else 5

/-! ## Mutating operations on the demo object -/

/-- The operations callable on the demo object, each carrying the
environment data its external calls need. -/
inductive Op where
  | connectOp (ok : Bool) : Op
  | probeOp (e : CommEnv) : Op
  | captureSingle (dev : List ℕ → Option (List ℚ)) (input : List ℕ) : Op
  | captureMultiple (dev : List ℕ → Option (List ℚ)) (n : ℕ) : Op
  | analyzeOp : Op
  | plotOp : Op
  | disconnectOp : Op

/-- The effect of each operation on the object state.  Only
`capture_multiple_traces` touches `self.traces` (`capture_real_trace`
returns the waveform without storing it; analysis, plotting and teardown
read but never write the trace list). -/
def applyOp : Op → RealChipWhispererDemo → RealChipWhispererDemo
  | Op.connectOp ok, d =>
    if ok then { d with scope := true, target := true, connected := true }
    else d
  | Op.probeOp _, d => d
  | Op.captureSingle _ _, d => d
  | Op.captureMultiple dev n, d => (capture_multiple_traces dev n d).1
  | Op.analyzeOp, d => d
  | Op.plotOp, d => d
  | Op.disconnectOp, d => d

/-! ## Concrete devices, states and environments used in instantiations -/

/-- A device that fails on the all-zero payload and otherwise returns the
one-sample waveform `[1]`. -/
def devW : List ℕ → Option (List ℚ) :=
  fun l => if l.headD 0 = 0 then none else some [1]

/-- A device whose every capture succeeds with the fixed waveform `[0]`. -/
def devSome : List ℕ → Option (List ℚ) := fun _ => some [0]

/-- A device whose every capture fails. -/
def devNone : List ℕ → Option (List ℚ) := fun _ => none

/-- The demo object after one successful one-iteration capture run:
`self.traces = [[0]]`. -/
def cexD1 : RealChipWhispererDemo :=
  applyOp (Op.captureMultiple devSome 1) initDemo

/-- `cexD1` after a second, failing one-iteration capture run:
`self.traces = []`. -/
def cexD2 : RealChipWhispererDemo :=
  applyOp (Op.captureMultiple devNone 1) cexD1

/-- A probe environment in which every serial call succeeds and the
target answers with one byte. -/
def commEnvOk : CommEnv :=
  { flush_ok := true, write_ok := true, read_result := Except.ok [1] }

/-- An environment whose `connect` fails; later calls never happen. -/
def envConnFail : Env :=
  { connect_ok := false
    comm := commEnvOk
    dev := devSome
    scope_dis_ok := true
    target_dis_ok := true }

/-- An environment in which every step succeeds. -/
def envAllOk : Env :=
  { connect_ok := true
    comm := commEnvOk
    dev := devSome
    scope_dis_ok := true
    target_dis_ok := true }

/-! ## Helper lemmas -/

/-- The capture loop appends the successful captures, in iteration order,
to the accumulator. -/
lemma captureLoop_eq (dev : List ℕ → Option (List ℚ)) (is : List ℕ)
    (acc : List (List ℚ)) :
    captureLoop dev is acc = acc ++ is.filterMap (fun i => dev (inputData i)) := by
  induction is generalizing acc with
  | nil => simp [captureLoop]
  | cons i is ih =>
    simp only [captureLoop, capture_real_trace]
    cases h : dev (inputData i) with
    | none => simp [ih, List.filterMap_cons, h]
    | some t => simp [ih, List.filterMap_cons, h]

/-- The trace set after a capture run is the list of successful device
results over the iteration indices. -/
lemma captureSet_eq (dev : List ℕ → Option (List ℚ)) (n : ℕ) :
    captureSet dev n = (List.range n).filterMap (fun i => dev (inputData i)) := by
  rw [captureSet, captureLoop_eq]; simp

/-- Counting the successes of a list of attempts. -/
lemma length_filterMap_eq {α β : Type} (f : α → Option β) (l : List α) :
    (l.filterMap f).length = (l.filter (fun a => (f a).isSome)).length := by
  induction l with
  | nil => simp
  | cons a l ih =>
    rw [List.filterMap_cons, List.filter_cons]
    cases h : f a with
    | none => simp [h, ih]
    | some b => simp [h, ih]

/-- Sum of a function mapped over `List.range` as a `Finset.range` sum. -/
lemma sum_map_range (f : ℕ → ℚ) (n : ℕ) :
    ((List.range n).map f).sum = ∑ i ∈ Finset.range n, f i := by
  induction n with
  | zero => simp
  | succ n ih =>
    rw [List.range_succ, List.map_append, List.sum_append,
      Finset.sum_range_succ, ih]
    simp

/-- Length of a filtered `List.range` as a `Finset.range` filter card. -/
lemma length_filter_range (p : ℕ → Prop) [DecidablePred p] (n : ℕ) :
    ((List.range n).filter (fun i => decide (p i))).length
      = ((Finset.range n).filter p).card := by
  induction n with
  | zero => simp
  | succ n ih =>
    rw [List.range_succ, Finset.range_succ, List.filter_append,
      List.length_append, Finset.filter_insert]
    by_cases hp : p n
    · rw [if_pos hp, Finset.card_insert_of_not_mem (by simp)]
      simp [hp, ih]
    · rw [if_neg hp]
      simp [hp, ih]

/-- Reading a set list at the set position. -/
lemma getD_set_self (l : List ℚ) (k : ℕ) (x : ℚ) (h : k < l.length) :
    (l.set k x).getD k 0 = x := by
  simp [List.getD, List.getElem?_set, h]

/-- Reading a set list away from the set position. -/
lemma getD_set_ne (l : List ℚ) (j k : ℕ) (x : ℚ) (h : j ≠ k) :
    (l.set k x).getD j 0 = l.getD j 0 := by
  simp [List.getD, List.getElem?_set, Ne.symm h]

/-- The mean of a constant nonempty list is that constant. -/
lemma mean_replicate {n : ℕ} (hn : 0 < n) (c : ℚ) :
    np.mean (List.replicate n c) = c := by
  have hn' : (n : ℚ) ≠ 0 := by exact_mod_cast hn.ne'
  simp [np.mean, List.sum_replicate, nsmul_eq_mul]
  field_simp

/-- The variance of a constant list is `0`. -/
lemma var_replicate (n : ℕ) (c : ℚ) : np.var (List.replicate n c) = 0 := by
  rcases Nat.eq_zero_or_pos n with rfl | hn
  · simp [np.var, np.mean]
  · rw [np.var, mean_replicate hn, List.map_replicate]
    simp [np.mean, List.sum_replicate]

/-- Population variance is nonnegative. -/
lemma var_nonneg (l : List ℚ) : 0 ≤ np.var l := by
  unfold np.var np.mean
  apply div_nonneg
  · apply List.sum_nonneg
    intro z hz
    obtain ⟨w, _, rfl⟩ := List.mem_map.1 hz
    positivity
  · positivity

/-- A list holding two distinct values has strictly positive variance. -/
lemma var_pos {l : List ℚ} {x y : ℚ} (hx : x ∈ l) (hy : y ∈ l)
    (hxy : x ≠ y) : 0 < np.var l := by
  set μ := np.mean l with hμ
  have hlen : (0 : ℚ) < l.length := by
    exact_mod_cast List.length_pos.mpr (List.ne_nil_of_mem hx)
  have hterm : ∃ a ∈ l, 0 < (a - μ) ^ 2 := by
    rcases eq_or_ne x μ with hxm | hxm
    · refine ⟨y, hy, ?_⟩
      have hym : y - μ ≠ 0 := sub_ne_zero.mpr (hxm ▸ (Ne.symm hxy))
      positivity
    · refine ⟨x, hx, ?_⟩
      have hxm' : x - μ ≠ 0 := sub_ne_zero.mpr hxm
      positivity
  obtain ⟨a, ha, hpos⟩ := hterm
  have hmem : (a - μ) ^ 2 ∈ l.map (fun z => (z - μ) ^ 2) :=
    List.mem_map_of_mem _ ha
  have hsum : (a - μ) ^ 2 ≤ (l.map (fun z => (z - μ) ^ 2)).sum := by
    apply List.single_le_sum _ _ hmem
    intro z hz
    obtain ⟨w, _, rfl⟩ := List.mem_map.1 hz
    positivity
  have hS : 0 < (l.map (fun z => (z - μ) ^ 2)).sum := lt_of_lt_of_le hpos hsum
  rw [np.var, np.mean]
  rw [← hμ]
  apply div_pos hS
  simpa using hlen

/-! ## Claim theorems -/

/-- Claim C1: for every `n ≥ 0`, `capture_multiple_traces(n)` performs
exactly `n` capture attempts, the `i`-th (0-indexed) attempt using the
payload `[i % 256] * 16`; each successful (non-`None`) capture is
appended to the trace set in iteration order, and the call returns `True`
iff at least one capture succeeded. -/
theorem claim_C1 (dev : List ℕ → Option (List ℚ)) (n : ℕ)
    (d : RealChipWhispererDemo) :
    (captureAttempts dev n).length = n
    ∧ (capture_multiple_traces dev n d).1.traces
        = (captureAttempts dev n).filterMap id
    ∧ (∀ i, i < n → (captureAttempts dev n).getD i none
        = dev (List.replicate 16 (i % 256)))
    ∧ ((capture_multiple_traces dev n d).2 = true ↔
        ∃ i, i < n ∧ (dev (List.replicate 16 (i % 256))).isSome = true) := by
  refine ⟨by simp [captureAttempts], ?_, ?_, ?_⟩
  · rw [capture_multiple_traces]
    simp only [captureSet_eq, captureAttempts, capture_real_trace,
      List.filterMap_map]
    rfl
  · intro i hi
    simp [captureAttempts, capture_real_trace, inputData, List.getD, hi]
  · rw [capture_multiple_traces]
    simp only [decide_eq_true_eq, List.length_pos, Ne, captureSet_eq,
      List.filterMap_eq_nil_iff]
    push_neg
    constructor
    · rintro ⟨i, hmem, hne⟩
      exact ⟨i, List.mem_range.1 hmem,
        Option.isSome_iff_ne_none.2 (by simpa [inputData] using hne)⟩
    · rintro ⟨i, hi, hsome⟩
      exact ⟨i, List.mem_range.2 hi,
        by simpa [inputData] using Option.isSome_iff_ne_none.1 hsome⟩

/-- Witness for C1 at the device `devW` and `n = 2`: the second attempt
uses the payload `[1] * 16` and the overall result is `True` because that
attempt succeeds. -/
theorem claim_C1_witness :
    (captureAttempts devW 2).getD 1 none = devW (List.replicate 16 (1 % 256))
    ∧ (capture_multiple_traces devW 2 initDemo).2 = true := by
  have h := claim_C1 devW 2 initDemo
  exact ⟨h.2.2.1 1 (by decide), h.2.2.2.2 ⟨1, by decide, by decide⟩⟩

/-- Claim C2: on an empty trace set, `analyze_traces` returns a falsy
failure value and `generate_plot` returns a failure value, and neither
raises an exception (both are total here, returning `none`/`false`). -/
theorem claim_C2 :
    analyze_traces [] = none ∧ generate_plot [] = false := by
  constructor
  · simp [analyze_traces]
  · simp [generate_plot]

/-- Claim C4: for a run of `capture_multiple_traces` over 5 iterations,
the length of the trace set after the call equals the number of
iterations whose capture returned non-`None`; it equals 5 when every
capture succeeds, in particular for a device returning a fixed trace `t`
on every iteration. -/
theorem claim_C4 (dev : List ℕ → Option (List ℚ)) (t : List ℚ)
    (d : RealChipWhispererDemo) :
    (capture_multiple_traces dev 5 d).1.traces.length
      = ((List.range 5).filter
          (fun i => (dev (List.replicate 16 (i % 256))).isSome)).length
    ∧ ((∀ i, i < 5 → (dev (List.replicate 16 (i % 256))).isSome = true) →
        (capture_multiple_traces dev 5 d).1.traces.length = 5)
    ∧ (capture_multiple_traces (fun _ => some t) 5 d).1.traces
        = List.replicate 5 t := by
  have hlen : (capture_multiple_traces dev 5 d).1.traces.length
      = ((List.range 5).filter
          (fun i => (dev (List.replicate 16 (i % 256))).isSome)).length := by
    rw [capture_multiple_traces]
    simp only [captureSet_eq, length_filterMap_eq, inputData]
  refine ⟨hlen, ?_, ?_⟩
  · intro hall
    rw [hlen, List.filter_eq_self.mpr ?_]
    · simp
    · intro i hi
      exact hall i (List.mem_range.1 hi)
  · rw [capture_multiple_traces]
    simp only [captureSet_eq]
    rw [show (fun i => (fun _ => some t) (inputData i))
          = some ∘ (fun (_ : ℕ) => t) from rfl]
    rw [List.filterMap_eq_map]
    simp [List.map_const']

/-- Witness for C4 at a device that always returns `[2]`: all five
captures succeed and the trace set has length 5. -/
theorem claim_C4_witness :
    (capture_multiple_traces (fun _ => some ([2] : List ℚ)) 5 initDemo).1.traces.length
      = 5 :=
  (claim_C4 (fun _ => some [2]) [2] initDemo).2.1 (fun _ _ => rfl)

/-- Claim C10: on a trace set with exactly one trace, `analyze_traces`
reports an average correlation of exactly `0` (the single-trace branch
resolves the edge case with `0` rather than NaN, without entering the
pairwise loop). -/
theorem claim_C10 (ts : List (List ℚ)) (h : ts.length = 1) :
    ∃ r, analyze_traces ts = some r ∧ r.avg_correlation = some 0 := by
  have hne : ts ≠ [] := by
    intro hh
    rw [hh] at h
    simp at h
  refine ⟨mkAnalysis ts, by simp [analyze_traces, hne], ?_⟩
  simp [mkAnalysis, avgCorrelation, h]

/-- Witness for C10 at the one-trace set `[[1, 2]]`. -/
theorem claim_C10_witness :
    ∃ r, analyze_traces [[1, 2]] = some r ∧ r.avg_correlation = some 0 :=
  claim_C10 [[1, 2]] rfl

/-- Claim C3: on every nonempty trace set, the `interesting_points` field
of the analysis equals the number of sample indices whose per-sample
variance strictly exceeds `3/2` times the mean of the per-sample
variances. -/
theorem claim_C3 (ts : List (List ℚ)) (h : ts ≠ []) :
    ∃ r, analyze_traces ts = some r
      ∧ r.interesting_points
          = ((Finset.range (traceLen ts)).filter
              (fun i => (3 / 2 : ℚ) * meanVariance ts < varAt ts i)).card := by
  refine ⟨mkAnalysis ts, by simp [analyze_traces, h], ?_⟩
  show (interestingIndices ts).length = _
  rw [interestingIndices]
  have heq : (fun i => decide (meanVariance ts * 1.5 < varAt ts i))
      = (fun i => decide ((3 / 2 : ℚ) * meanVariance ts < varAt ts i)) := by
    funext i
    rw [decide_eq_decide]
    constructor <;> intro hh <;> linarith
  rw [heq, length_filter_range]

/-- Witness for C3 at the trace set `[[0, 0], [4, 0]]` (variances `4` and
`0`, mean variance `2`, one interesting point). -/
theorem claim_C3_witness :
    ([[0, 0], [4, 0]] : List (List ℚ)) ≠ []
    ∧ ∃ r, analyze_traces [[0, 0], [4, 0]] = some r
      ∧ r.interesting_points
          = ((Finset.range (traceLen [[0, 0], [4, 0]])).filter
              (fun i => (3 / 2 : ℚ) * meanVariance [[0, 0], [4, 0]]
                < varAt [[0, 0], [4, 0]] i)).card :=
  ⟨by decide, claim_C3 [[0, 0], [4, 0]] (by decide)⟩

/-- Claim C6: on a trace set of exactly two identical constant traces the
per-sample standard deviation is `0` at every index, the average
correlation is undefined (NaN, modelled as `none`), and the analysis
completes without an exception. -/
theorem claim_C6 (c : ℚ) (n : ℕ) (hn : 0 < n) :
    ∃ r, analyze_traces [List.replicate n c, List.replicate n c] = some r
      ∧ (∀ x ∈ r.std_trace, x = 0)
      ∧ r.avg_correlation = none := by
  set t := List.replicate n c with ht
  refine ⟨mkAnalysis [t, t], by simp [analyze_traces], ?_, ?_⟩
  · show ∀ x ∈ stdTrace [t, t], x = 0
    have hvz : ∀ v ∈ varianceList [t, t], v = 0 := by
      intro v hv
      rw [varianceList, List.mem_map] at hv
      obtain ⟨i, hi, rfl⟩ := hv
      have hcol : column [t, t] i = [t.getD i 0, t.getD i 0] := by
        simp [column]
      rw [varAt, hcol]
      have h2 := var_replicate 2 (t.getD i 0)
      simpa [List.replicate] using h2
    intro x hx
    rw [stdTrace, List.mem_map] at hx
    obtain ⟨v, hv, rfl⟩ := hx
    rw [hvz v hv]
    simp
  · show avgCorrelation [t, t] = none
    rw [avgCorrelation]
    have hlen : 1 < ([t, t] : List (List ℚ)).length := by simp
    rw [if_pos hlen]
    have hp : tracePairs [t, t] = [(t, t)] := by
      simp [tracePairs, List.range_succ]
    have hvar : np.var t = 0 := ht ▸ var_replicate n c
    simp [hp, np.corrcoef, hvar]

/-- Witness for C6 at two copies of the constant trace `[2, 2, 2]`. -/
theorem claim_C6_witness :
    0 < 3
    ∧ ∃ r, analyze_traces [List.replicate 3 (2 : ℚ), List.replicate 3 2]
        = some r
      ∧ (∀ x ∈ r.std_trace, x = 0)
      ∧ r.avg_correlation = none :=
  ⟨by decide, claim_C6 2 3 (by decide)⟩

/-- Claim C7: on a trace set of `m₁ + m₂ + 1 ≥ 2` traces that all equal a
common base trace `b` (of length at least 2) except that exactly one of
them deviates at the single sample index `k` by `e ≠ 0`, the
`interesting_points` count is at least 1 and the index set of
high-variance samples includes `k`. -/
theorem claim_C7 (b : List ℚ) (k : ℕ) (e : ℚ) (m₁ m₂ : ℕ)
    (hL : 2 ≤ b.length) (hk : k < b.length) (he : e ≠ 0)
    (hm : 1 ≤ m₁ + m₂) :
    ∃ r, analyze_traces (List.replicate m₁ b
        ++ (b.set k (b.getD k 0 + e)) :: List.replicate m₂ b) = some r
      ∧ 1 ≤ r.interesting_points
      ∧ k ∈ interestingIndices (List.replicate m₁ b
          ++ (b.set k (b.getD k 0 + e)) :: List.replicate m₂ b) := by
  set v : ℚ := b.getD k 0 with hv
  set s : List ℚ := b.set k (v + e) with hs
  set ts : List (List ℚ) := List.replicate m₁ b ++ s :: List.replicate m₂ b
    with hts
  have hne : ts ≠ [] := by
    intro hcontra
    have := congrArg List.length hcontra
    simp [hts] at this
  have htl : traceLen ts = b.length := by
    rw [hts, traceLen]
    cases m₁ with
    | zero => simp [hs]
    | succ m => simp [List.replicate_succ]
  have hcolj : ∀ j, column ts j = List.replicate m₁ (b.getD j 0)
      ++ (s.getD j 0) :: List.replicate m₂ (b.getD j 0) := by
    intro j
    rw [hts, column]
    simp [List.map_replicate]
  have hvar0 : ∀ j, j ≠ k → varAt ts j = 0 := by
    intro j hj
    rw [varAt, hcolj j, hs, getD_set_ne b j k _ hj]
    have hrepl : List.replicate m₁ (b.getD j 0)
        ++ (b.getD j 0) :: List.replicate m₂ (b.getD j 0)
        = List.replicate (m₁ + (m₂ + 1)) (b.getD j 0) := by
      rw [List.replicate_add]
      simp [List.replicate_succ]
    rw [hrepl]
    exact var_replicate _ _
  have hcolk : column ts k = List.replicate m₁ v ++ (v + e) :: List.replicate m₂ v := by
    rw [hcolj k, hs, getD_set_self b k _ hk, ← hv]
  have hmem1 : v + e ∈ column ts k := by
    rw [hcolk]
    exact List.mem_append_right _ (List.mem_cons_self _ _)
  have hmem2 : v ∈ column ts k := by
    rw [hcolk]
    rcases Nat.eq_zero_or_pos m₁ with h1 | h1
    · subst h1
      have h2 : m₂ ≠ 0 := by omega
      simp [List.mem_replicate, h2]
    · have h1' : m₁ ≠ 0 := by omega
      simp [List.mem_append, List.mem_replicate, h1']
  have hvne : v ≠ v + e := by
    intro hcontra
    apply he
    linarith [hcontra]
  have hVpos : 0 < varAt ts k := var_pos hmem2 hmem1 hvne
  have hlenv : (varianceList ts).length = b.length := by
    simp [varianceList, htl]
  have hsum : (varianceList ts).sum = varAt ts k := by
    rw [varianceList, htl, sum_map_range]
    exact Finset.sum_eq_single_of_mem k (Finset.mem_range.2 hk)
      (fun j _ hj => hvar0 j hj)
  have hmv : meanVariance ts = varAt ts k / b.length := by
    rw [meanVariance, np.mean, hsum, hlenv]
  have hkey : meanVariance ts * 1.5 < varAt ts k := by
    rw [hmv]
    have hb : (2 : ℚ) ≤ (b.length : ℚ) := by exact_mod_cast hL
    have hb0 : (0 : ℚ) < (b.length : ℚ) := by linarith
    rw [div_mul_eq_mul_div, div_lt_iff₀ hb0]
    nlinarith [hVpos, hb, mul_le_mul_of_nonneg_left hb (le_of_lt hVpos)]
  have hmemk : k ∈ interestingIndices ts := by
    rw [interestingIndices, List.mem_filter]
    refine ⟨?_, by simp [hkey]⟩
    rw [htl]
    exact List.mem_range.2 hk
  have hcount : 0 < (interestingIndices ts).length :=
    List.length_pos.mpr (List.ne_nil_of_mem hmemk)
  refine ⟨mkAnalysis ts, by simp [analyze_traces, hne], ?_, hmemk⟩
  show 1 ≤ (interestingIndices ts).length
  omega

/-- Witness for C7 at base trace `[1, 1]`, spike `+6` at index `0`,
one undisturbed companion trace: the trace set `[[7, 1], [1, 1]]`. -/
theorem claim_C7_witness :
    (2 ≤ ([1, 1] : List ℚ).length ∧ 0 < ([1, 1] : List ℚ).length
      ∧ (6 : ℚ) ≠ 0 ∧ 1 ≤ 0 + 1)
    ∧ ∃ r, analyze_traces (List.replicate 0 [1, 1]
        ++ (([1, 1] : List ℚ).set 0 (([1, 1] : List ℚ).getD 0 0 + 6))
          :: List.replicate 1 [1, 1]) = some r
      ∧ 1 ≤ r.interesting_points
      ∧ 0 ∈ interestingIndices (List.replicate 0 [1, 1]
          ++ (([1, 1] : List ℚ).set 0 (([1, 1] : List ℚ).getD 0 0 + 6))
            :: List.replicate 1 [1, 1]) :=
  ⟨⟨by decide, by decide, by norm_num, by decide⟩,
   claim_C7 [1, 1] 0 6 0 1 (by decide) (by decide) (by norm_num) (by decide)⟩

/-- Claim C9: `test_target_communication` sends a fixed 16-byte payload
(`[0xAA] * 16`) with the fixed command code `'p'`, waits a fixed delay
before reading, and returns `True` iff the response read back is
non-empty; any exception during the exchange yields `False` rather than
propagating.  The executed serial actions always form a prefix of the
fixed sequence flush → write → sleep → read, and every write carries the
fixed command and payload. -/
theorem claim_C9 (e : CommEnv) :
    ((test_target_communication e).1 = true ↔
      e.flush_ok = true ∧ e.write_ok = true
        ∧ ∃ r, e.read_result = Except.ok r ∧ r ≠ [])
    ∧ (∃ t, (test_target_communication e).2 ++ t = probeSeq)
    ∧ (∀ c bs, CommAction.write c bs ∈ (test_target_communication e).2 →
        c = 'p' ∧ bs = List.replicate 16 170) := by
  obtain ⟨f, w, rr⟩ := e
  cases f
  · refine ⟨by simp [test_target_communication], ?_, ?_⟩
    · exact ⟨_, rfl⟩
    · intro c bs hmem
      simp [test_target_communication] at hmem
  · cases w
    · refine ⟨by simp [test_target_communication], ?_, ?_⟩
      · exact ⟨_, rfl⟩
      · intro c bs hmem
        simp [test_target_communication] at hmem
        exact ⟨hmem.1, hmem.2⟩
    · cases rr with
      | error u =>
        refine ⟨by simp [test_target_communication], ?_, ?_⟩
        · exact ⟨_, rfl⟩
        · intro c bs hmem
          simp [test_target_communication, probeSeq] at hmem
          exact ⟨hmem.1, hmem.2⟩
      | ok resp =>
        refine ⟨?_, ?_, ?_⟩
        · simp [test_target_communication]
        · exact ⟨[], by simp [test_target_communication]⟩
        · intro c bs hmem
          simp [test_target_communication, probeSeq] at hmem
          exact ⟨hmem.1, hmem.2⟩

/-- Witness for C9 at a fully successful probe environment: the probe
succeeds, and its write action (present in the executed actions) carries
command `'p'` and payload `[170] * 16`. -/
theorem claim_C9_witness :
    (test_target_communication commEnvOk).1 = true
    ∧ ('p' = 'p' ∧ List.replicate 16 170 = List.replicate (16 : ℕ) (170 : ℕ)) := by
  have h := claim_C9 commEnvOk
  refine ⟨?_, ?_⟩
  · exact h.1.2 ⟨rfl, rfl, [1], rfl, by decide⟩
  · exact h.2.2 'p' (List.replicate 16 170) (by decide)

/-- Claim C5: in every execution of the top-level run sequence, the
failure of any step prevents every later gated step from executing
(a step of `runSeq` is executed iff all earlier steps succeeded), yet the
disconnect step runs exactly once afterwards — including when `connect`
itself fails — and `disconnect` never propagates an exception. -/
theorem claim_C5 (env : Env) :
    main env = runSeq.take (execCount env) ++ [DemoStep.disconnect]
    ∧ 1 ≤ execCount env
    ∧ execCount env ≤ 5
    ∧ (main env).count DemoStep.disconnect = 1
    ∧ (∀ j, j < 5 → (runSeq.getD j DemoStep.disconnect ∈ main env ↔
        ∀ i, i < j → stepOk env i = true))
    ∧ (env.connect_ok = false →
        main env = [DemoStep.connect, DemoStep.disconnect])
    ∧ (∀ d, disconnect env d = Except.ok ()) := by
  have hdis : ∀ d, disconnect env d = Except.ok () := by
    intro d
    unfold disconnect
    cases hr : disconnectRaw env d <;> simp
  have mem_take : ∀ j, j < 5 → ∀ kk, kk ≤ 5 →
      ((runSeq.getD j DemoStep.disconnect
          ∈ runSeq.take kk ++ [DemoStep.disconnect]) ↔ j < kk) := by
    decide
  cases hc : env.connect_ok with
  | false =>
    have hrun : (run_demo env initDemo).2.2 = runSeq.take 1 := by
      simp [run_demo, connect, hc, runSeq]
    have hev : execCount env = 1 := by
      simp [execCount, stepOk, hc]
    have hmainEq : main env = runSeq.take 1 ++ [DemoStep.disconnect] := by
      simp only [main, hrun]
    have key : ∀ j, j < 5 →
        ((∀ i, i < j → stepOk env i = true) ↔ j < 1) := by
      intro j hj
      constructor
      · intro hall
        by_contra hlt
        push_neg at hlt
        have h0 := hall 0 (by omega)
        simp [stepOk, hc] at h0
      · intro hjlt i hi
        omega
    refine ⟨by rw [hmainEq, hev], by omega, by omega, ?_, ?_, ?_, hdis⟩
    · rw [hmainEq]
      decide
    · intro j hj
      rw [hmainEq]
      exact (mem_take j hj 1 (by omega)).trans (key j hj).symm
    · intro _
      rw [hmainEq]
      decide
  | true =>
    cases hp : (test_target_communication env.comm).1 with
    | false =>
      have hrun : (run_demo env initDemo).2.2 = runSeq.take 2 := by
        simp [run_demo, connect, hc, hp, runSeq]
      have hev : execCount env = 2 := by
        simp [execCount, stepOk, hc, hp]
      have hmainEq : main env = runSeq.take 2 ++ [DemoStep.disconnect] := by
        simp only [main, hrun]
      have key : ∀ j, j < 5 →
          ((∀ i, i < j → stepOk env i = true) ↔ j < 2) := by
        intro j hj
        constructor
        · intro hall
          by_contra hlt
          push_neg at hlt
          have h1 := hall 1 (by omega)
          simp [stepOk, hp] at h1
        · intro hjlt i hi
          have hi0 : i = 0 := by omega
          subst hi0
          simp [stepOk, hc]
      refine ⟨by rw [hmainEq, hev], by omega, by omega, ?_, ?_, ?_, hdis⟩
      · rw [hmainEq]
        decide
      · intro j hj
        rw [hmainEq]
        exact (mem_take j hj 2 (by omega)).trans (key j hj).symm
      · intro hcontra
        exact absurd hcontra (by decide)
    | true =>
      cases hcap : decide (0 < (captureSet env.dev 5).length) with
      | false =>
        have hrun : (run_demo env initDemo).2.2 = runSeq.take 3 := by
          simp [run_demo, connect, hc, hp, capture_multiple_traces, hcap,
            runSeq]
        have hev : execCount env = 3 := by
          simp [execCount, stepOk, hc, hp, hcap]
        have hmainEq : main env = runSeq.take 3 ++ [DemoStep.disconnect] := by
          simp only [main, hrun]
        have key : ∀ j, j < 5 →
            ((∀ i, i < j → stepOk env i = true) ↔ j < 3) := by
          intro j hj
          constructor
          · intro hall
            by_contra hlt
            push_neg at hlt
            have h2 := hall 2 (by omega)
            simp [stepOk, hcap] at h2
          · intro hjlt i hi
            have hi2 : i < 2 := by omega
            interval_cases i
            · simp [stepOk, hc]
            · simp [stepOk, hp]
        refine ⟨by rw [hmainEq, hev], by omega, by omega, ?_, ?_, ?_, hdis⟩
        · rw [hmainEq]
          decide
        · intro j hj
          rw [hmainEq]
          exact (mem_take j hj 3 (by omega)).trans (key j hj).symm
        · intro hcontra
          exact absurd hcontra (by decide)
      | true =>
        have hne : captureSet env.dev 5 ≠ [] :=
          List.ne_nil_of_length_pos (of_decide_eq_true hcap)
        have hrun : (run_demo env initDemo).2.2 = runSeq.take 5 := by
          simp [run_demo, connect, hc, hp, capture_multiple_traces, hcap,
            analyze_traces, hne, generate_plot, runSeq]
        have hev : execCount env = 5 := by
          simp [execCount, stepOk, hc, hp, hcap, analyze_traces, hne,
            generate_plot]
        have hmainEq : main env = runSeq.take 5 ++ [DemoStep.disconnect] := by
          simp only [main, hrun]
        have key : ∀ j, j < 5 →
            ((∀ i, i < j → stepOk env i = true) ↔ j < 5) := by
          intro j hj
          constructor
          · intro _
            exact hj
          · intro _ i hi
            have hi4 : i < 4 := by omega
            interval_cases i
            · simp [stepOk, hc]
            · simp [stepOk, hp]
            · simp [stepOk, hcap]
            · simp [stepOk, analyze_traces, hne]
        refine ⟨by rw [hmainEq, hev], by omega, by omega, ?_, ?_, ?_, hdis⟩
        · rw [hmainEq]
          decide
        · intro j hj
          rw [hmainEq]
          exact (mem_take j hj 5 (by omega)).trans (key j hj).symm
        · intro hcontra
          exact absurd hcontra (by decide)

/-- Witness for C5 at an environment whose `connect` fails: the run
executes only the connect step, the teardown still runs, and
`disconnect` reports no exception. -/
theorem claim_C5_witness :
    envConnFail.connect_ok = false
    ∧ main envConnFail = [DemoStep.connect, DemoStep.disconnect]
    ∧ disconnect envConnFail initDemo = Except.ok () := by
  have h := claim_C5 envConnFail
  exact ⟨rfl, h.2.2.2.2.2.1 rfl, h.2.2.2.2.2.2 initDemo⟩

/-- Counterexample to claim C8 as stated: `capture_multiple_traces`
begins by resetting `self.traces = []`, so a second capture run whose
captures all fail removes the trace stored by a first successful run —
the trace set is not mutated only by appending. -/
theorem claim_C8_counterexample :
    cexD1.traces = [[0]]
    ∧ cexD2.traces = []
    ∧ ¬ ∃ t, cexD1.traces ++ t = cexD2.traces := by
  refine ⟨by decide, by decide, ?_⟩
  rintro ⟨t, ht⟩
  rw [show cexD1.traces = [[0]] from by decide,
    show cexD2.traces = [] from by decide] at ht
  simp at ht

/-- Claim C8, amended: every operation other than
`capture_multiple_traces` leaves the trace set unchanged, and
`capture_multiple_traces` replaces it with a set built append-only from
empty — the set after any iteration prefix is a prefix of the final
set.  (The original claim fails only because `capture_multiple_traces`
resets the trace set to empty before appending.) -/
theorem claim_C8_amended (op : Op) (d : RealChipWhispererDemo) :
    ((∀ dev n, op ≠ Op.captureMultiple dev n) →
      (applyOp op d).traces = d.traces)
    ∧ (∀ dev n, op = Op.captureMultiple dev n →
        (applyOp op d).traces = captureSet dev n
        ∧ ∀ m, m ≤ n → ∃ t, captureSet dev m ++ t = captureSet dev n) := by
  constructor
  · intro hne
    cases op with
    | connectOp ok => cases ok <;> rfl
    | probeOp e => rfl
    | captureSingle dev input => rfl
    | captureMultiple dev n => exact absurd rfl (hne dev n)
    | analyzeOp => rfl
    | plotOp => rfl
    | disconnectOp => rfl
  · intro dev n heq
    subst heq
    refine ⟨rfl, ?_⟩
    intro m hm
    obtain ⟨k, rfl⟩ := Nat.exists_eq_add_of_le hm
    rw [captureSet_eq, captureSet_eq, List.range_add, List.filterMap_append]
    exact ⟨_, rfl⟩

/-- Witness for the amended C8 at a two-iteration capture run with an
always-succeeding device: the trace set after the run is the capture
set, and the set after the first iteration is a prefix of it. -/
theorem claim_C8_amended_witness :
    (applyOp (Op.captureMultiple devSome 2) initDemo).traces
      = captureSet devSome 2
    ∧ ∃ t, captureSet devSome 1 ++ t = captureSet devSome 2 := by
  have h := claim_C8_amended (Op.captureMultiple devSome 2) initDemo
  obtain ⟨htr, hmono⟩ := h.2 devSome 2 rfl
  exact ⟨htr, hmono 1 (by omega)⟩

end RealHardwareDemo
